import Mathlib

set_option maxRecDepth 40000

/-!
Shallow embedding of the psephos voting program
(src/anchor/programs/psephos/src/lib.rs) and proofs about its
specification claims.

Modelling conventions:
* `u64` values are `Nat` (with explicit `< 2 ^ 64` hypotheses where the
  width matters), `i64` timestamps are `Int`, byte arrays are `List Nat`
  with a validity predicate `ValidBytes` (every entry `< 256`).
* Solana public keys are abstracted as `Nat`.
* Anchor account resolution is modelled explicitly: the exclusive `init`
  of the vote-record PDA (lib.rs lines 418-425) appears as the `existing`
  argument checked before the instruction body runs, and the
  `FinalizeProposal` creator constraint (lib.rs line 477) is checked
  before the `finalize_proposal` body.
* The external collaborators are parameters: the voter's token balance
  (`voter_balance`) and the Sunspot verifier's outcome
  (`verifier_result`; `Except.error code` is a CPI failure carrying the
  callee's error code, which `invoke(..)?` propagates unchanged).
* The default build (without the `skip-zk-verify` feature) is modelled:
  the CPI to the verifier always runs.
* Each instruction is a pure function returning `Except`; the Solana
  runtime's transactional semantics (failed instruction = no state
  change) is modelled by `applyOp`, which keeps the old `World` when an
  instruction fails.
-/

namespace Psephos

/-- lib.rs line 9: maximum length for proposal title. -/
def MAX_TITLE_LENGTH : Nat := 100
/-- lib.rs line 11: maximum length for each option. -/
def MAX_OPTION_LENGTH : Nat := 50
/-- lib.rs line 13: maximum number of voting options. -/
def MAX_OPTIONS : Nat := 10
/-- lib.rs line 21: expected size of a Gnark Groth16 proof. -/
def GNARK_PROOF_SIZE : Nat := 388
/-- lib.rs line 23: minimum valid proof size. -/
def MIN_PROOF_SIZE : Nat := 256
/-- lib.rs line 25: number of public inputs in the circuit. -/
def NUM_PUBLIC_INPUTS : Nat := 4
/-- lib.rs line 27: size of each field element in the public witness. -/
def FIELD_ELEMENT_SIZE : Nat := 32
/-- lib.rs line 29: public witness header size for gnark format. -/
def PUBLIC_WITNESS_HEADER_SIZE : Nat := 12

/-- lib.rs line 136: `PUBLIC_WITNESS_HEADER_SIZE + NUM_PUBLIC_INPUTS * FIELD_ELEMENT_SIZE` = 140. -/
def expected_witness_size : Nat :=
  PUBLIC_WITNESS_HEADER_SIZE + NUM_PUBLIC_INPUTS * FIELD_ELEMENT_SIZE

/-- lib.rs lines 495-541: the program's error taxonomy. -/
inductive PsephosError where
  | TitleTooLong
  | TooFewOptions
  | TooManyOptions
  | OptionTooLong
  | VotingNotStarted
  | VotingEnded
  | VotingNotEnded
  | ProposalFinalized
  | InvalidProof
  | InvalidVoteChoice
  | AlreadyRevealed
  | Unauthorized
  | InvalidReveal
  | InvalidPublicWitness
  | ThresholdMismatch
  | ProposalIdMismatch
  | CommitmentMismatch
  | NullifierMismatch
  | InsufficientTokens
  | InvalidTokenMint
  | InvalidTokenOwner
  | InvalidVerifierProgram
  deriving DecidableEq, Repr

/-- lib.rs lines 312-339: the `Proposal` account. -/
structure Proposal where
  id : Nat
  creator : Nat
  title : String
  options : List String
  token_mint : Nat
  min_threshold : Nat
  start_time : Int
  end_time : Int
  vote_count : Nat
  is_finalized : Bool
  deriving DecidableEq, Repr

/-- lib.rs lines 341-358: the `VoteRecord` account (PDA keyed by the nullifier). -/
structure VoteRecord where
  proposal : Nat
  nullifier : List Nat
  vote_commitment : List Nat
  timestamp : Int
  is_revealed : Bool
  revealed_choice : Option Nat
  deriving DecidableEq, Repr

/-- lib.rs lines 360-372: the `ProposalResults` account. -/
structure ProposalResults where
  proposal : Nat
  tallies : List Nat
  is_finalized : Bool
  deriving DecidableEq, Repr

/-- How a `cast_vote` instruction can fail: a `PsephosError` from the
handler body, the system-program failure when the vote-record PDA
already exists (Anchor `init`, lib.rs lines 418-425), or the propagated
error of the verifier CPI (lib.rs line 201). -/
inductive CastErr where
  | program : PsephosError → CastErr
  | recordExists
  | verifier : Nat → CastErr
  deriving DecidableEq, Repr

/-- How a `reveal_vote` instruction can fail: a `PsephosError`, a missing
vote-record account, or the Rust panic on an out-of-bounds
`results.tallies[vote_choice]` index (lib.rs line 281). -/
inductive RevealErr where
  | program : PsephosError → RevealErr
  | recordMissing
  | tallyIndexOutOfBounds
  deriving DecidableEq, Repr

/-- Every entry of the list is a byte value. -/
def ValidBytes (l : List Nat) : Prop := ∀ b ∈ l, b < 256

instance : DecidablePred ValidBytes := fun l =>
  inferInstanceAs (Decidable (∀ b ∈ l, b < 256))

/-- Big-endian interpretation of a byte list, as done by
`u32::from_be_bytes` / `u64::from_be_bytes` in lib.rs lines 141 and 155. -/
def beBytesToNat : List Nat → Nat
  | [] => 0
  | b :: rest => b * 256 ^ rest.length + beBytesToNat rest

/-- Big-endian encoding of `v` into `k` bytes (zero-padded). -/
def natToBeBytes : Nat → Nat → List Nat
  | 0, _ => []
  | k + 1, v => natToBeBytes k (v / 256) ++ [v % 256]

/-- The Rust slice `l[a..b]`. -/
def sliceBytes (l : List Nat) (a b : Nat) : List Nat :=
  (l.drop a).take (b - a)

/-- lib.rs lines 40-81: `create_proposal`. `now` is `Clock::get()`,
`creator` the signer's key. -/
def create_proposal (now : Int) (creator : Nat) (proposal_id : Nat)
    (title : String) (options : List String) (token_mint : Nat)
    (min_threshold : Nat) (voting_period_seconds : Int) :
    Except PsephosError (Proposal × ProposalResults) :=
  if MAX_TITLE_LENGTH < title.length then .error .TitleTooLong
  else if options.length < 2 then .error .TooFewOptions
  else if MAX_OPTIONS < options.length then .error .TooManyOptions
  else if options.any (fun o => MAX_OPTION_LENGTH < o.length) then .error .OptionTooLong
  else
    .ok ({ id := proposal_id
           creator := creator
           title := title
           options := options
           token_mint := token_mint
           min_threshold := min_threshold
           start_time := now
           end_time := now + voting_period_seconds
           vote_count := 0
           is_finalized := false },
         { proposal := proposal_id
           tallies := List.replicate options.length 0
           is_finalized := false })

/-- The PROOF VALIDATION block of `cast_vote` (lib.rs lines 126-180):
proof-size bounds, witness-size bound, header count, and the four field
cross-checks, returning the first failing check's error.

Byte offsets: the witness header is bytes `[0,12)`; field element 0
(threshold) is `[12,44)` with its meaningful low 8 bytes at `[36,44)`;
element 1 (proposal id) is `[44,76)` with low 8 bytes at `[68,76)`;
element 2 (commitment) is `[76,108)`; element 3 (nullifier) is
`[108,140)` — exactly the arithmetic of lib.rs lines 152-179.
The `8 ≤ len` and `expected_witness_size ≤ len` guards reproduce
the `if` wrappers at lib.rs lines 140 and 150; the `try_into()` calls
inside them cannot fail there because the slices have their exact
expected length once `expected_witness_size ≤ len`. -/
def proof_checks (proposal : Proposal)
    (nullifier vote_commitment proof public_witness : List Nat) :
    Option PsephosError :=
  if proof.length < MIN_PROOF_SIZE then some .InvalidProof
  else if GNARK_PROOF_SIZE + 64 < proof.length then some .InvalidProof
  else if public_witness.length < expected_witness_size then some .InvalidPublicWitness
  else if 8 ≤ public_witness.length ∧
      beBytesToNat (sliceBytes public_witness 0 4) ≠ NUM_PUBLIC_INPUTS then
    some .InvalidPublicWitness
  else if expected_witness_size ≤ public_witness.length ∧
      beBytesToNat (sliceBytes public_witness 36 44) ≠ proposal.min_threshold then
    some .ThresholdMismatch
  else if expected_witness_size ≤ public_witness.length ∧
      beBytesToNat (sliceBytes public_witness 68 76) ≠ proposal.id then
    some .ProposalIdMismatch
  else if expected_witness_size ≤ public_witness.length ∧
      sliceBytes public_witness 76 108 ≠ vote_commitment then
    some .CommitmentMismatch
  else if expected_witness_size ≤ public_witness.length ∧
      sliceBytes public_witness 108 140 ≠ nullifier then
    some .NullifierMismatch
  else none

/-- lib.rs lines 98-235: `cast_vote`.

`existing` is the vote-record account at PDA seed
`(proposal, nullifier)`; Anchor's exclusive `init` (lib.rs lines
418-425) fails before the handler body when it already exists.
`voter_balance` is `ctx.accounts.voter_token_account.amount`;
`verifier_result` is the outcome of the verifier CPI at lib.rs line 201,
whose error is propagated unchanged by `invoke(..)?`. -/
def cast_vote (now : Int) (proposal : Proposal) (existing : Option VoteRecord)
    (voter_balance : Nat) (verifier_result : Except Nat Unit)
    (nullifier vote_commitment proof public_witness : List Nat) :
    Except CastErr (Proposal × VoteRecord) :=
  if existing.isSome then .error .recordExists
  else if now < proposal.start_time then .error (.program .VotingNotStarted)
  else if proposal.end_time < now then .error (.program .VotingEnded)
  else if proposal.is_finalized then .error (.program .ProposalFinalized)
  else if voter_balance < proposal.min_threshold then .error (.program .InsufficientTokens)
  else
    match proof_checks proposal nullifier vote_commitment proof public_witness with
    | some e => .error (.program e)
    | none =>
        match verifier_result with
        | .error code => .error (.verifier code)
        | .ok _ =>
            .ok ({ proposal with vote_count := proposal.vote_count + 1 },
                 { proposal := proposal.id
                   nullifier := nullifier
                   vote_commitment := vote_commitment
                   timestamp := now
                   is_revealed := false
                   revealed_choice := none })

/-- lib.rs lines 252-285: `reveal_vote`. The final branch models the
Rust `results.tallies[vote_choice as usize] += 1`, which panics when
the index is out of bounds. -/
def reveal_vote (now : Int) (proposal : Proposal) (vote_record : VoteRecord)
    (results : ProposalResults) (vote_choice : Nat) :
    Except RevealErr (VoteRecord × ProposalResults) :=
  if now ≤ proposal.end_time then .error (.program .VotingNotEnded)
  else if proposal.is_finalized then .error (.program .ProposalFinalized)
  else if proposal.options.length ≤ vote_choice then .error (.program .InvalidVoteChoice)
  else if vote_record.is_revealed then .error (.program .AlreadyRevealed)
  else if vote_choice < results.tallies.length then
    .ok ({ vote_record with
           is_revealed := true
           revealed_choice := some vote_choice },
         { results with
           tallies := results.tallies.set vote_choice
             (results.tallies.getD vote_choice 0 + 1) })
  else .error .tallyIndexOutOfBounds

/-- lib.rs lines 288-305 together with the `FinalizeProposal` account
constraint at lib.rs line 477, which Anchor checks before the handler
body: the signer must be the proposal's creator. -/
def finalize_proposal (now : Int) (caller : Nat) (proposal : Proposal)
    (results : ProposalResults) :
    Except PsephosError (Proposal × ProposalResults) :=
  if caller ≠ proposal.creator then .error .Unauthorized
  else if now ≤ proposal.end_time then .error .VotingNotEnded
  else if proposal.is_finalized then .error .ProposalFinalized
  else
    .ok ({ proposal with is_finalized := true },
         { results with is_finalized := true })

/-- The on-chain state for one proposal: the `Proposal` account, its
`ProposalResults` account, and the vote-record PDAs keyed by nullifier. -/
structure World where
  proposal : Proposal
  results : ProposalResults
  records : List VoteRecord
  deriving DecidableEq, Repr

/-- Look up the vote-record PDA for a nullifier. -/
def findRecord (records : List VoteRecord) (nullifier : List Nat) :
    Option VoteRecord :=
  records.find? (fun r => decide (r.nullifier = nullifier))

/-- Replace the (unique) record with the given nullifier; models an
in-place account mutation. -/
def setRecord (records : List VoteRecord) (nullifier : List Nat)
    (r' : VoteRecord) : List VoteRecord :=
  match records with
  | [] => []
  | r :: rs =>
      if r.nullifier = nullifier then r' :: rs
      else r :: setRecord rs nullifier r'

/-- `cast_vote` as a transition on the world: the vote-record PDA lookup
feeds the exclusive-`init` check, and a successful cast persists the new
record. -/
def castVoteWorld (now : Int) (voter_balance : Nat)
    (verifier_result : Except Nat Unit)
    (nullifier vote_commitment proof public_witness : List Nat)
    (w : World) : Except CastErr World :=
  match cast_vote now w.proposal (findRecord w.records nullifier)
      voter_balance verifier_result nullifier vote_commitment proof
      public_witness with
  | .error e => .error e
  | .ok (p', rec) =>
      .ok { proposal := p'
            results := w.results
            records := rec :: w.records }

/-- `reveal_vote` as a transition on the world. -/
def revealVoteWorld (now : Int) (nullifier : List Nat) (vote_choice : Nat)
    (w : World) : Except RevealErr World :=
  match findRecord w.records nullifier with
  | none => .error .recordMissing
  | some rec =>
      match reveal_vote now w.proposal rec w.results vote_choice with
      | .error e => .error e
      | .ok (rec', res') =>
          .ok { proposal := w.proposal
                results := res'
                records := setRecord w.records nullifier rec' }

/-- `finalize_proposal` as a transition on the world. -/
def finalizeWorld (now : Int) (caller : Nat) (w : World) :
    Except PsephosError World :=
  match finalize_proposal now caller w.proposal w.results with
  | .error e => .error e
  | .ok (p', res') =>
      .ok { proposal := p'
            results := res'
            records := w.records }

/-- One instruction together with its external inputs (clock, token
balance, verifier verdict, signer). -/
inductive Op where
  | cast (now : Int) (voter_balance : Nat) (verifier_result : Except Nat Unit)
      (nullifier vote_commitment proof public_witness : List Nat)
  | reveal (now : Int) (nullifier : List Nat) (vote_choice : Nat)
  | finalize (now : Int) (caller : Nat)

/-- Transactional semantics: a failed instruction leaves the state
untouched. -/
def applyOp (w : World) (op : Op) : World :=
  match op with
  | .cast now bal verdict n c pf wit =>
      match castVoteWorld now bal verdict n c pf wit w with
      | .ok w' => w'
      | .error _ => w
  | .reveal now n choice =>
      match revealVoteWorld now n choice w with
      | .ok w' => w'
      | .error _ => w
  | .finalize now caller =>
      match finalizeWorld now caller w with
      | .ok w' => w'
      | .error _ => w

/-- Worlds reachable from a successful `create_proposal` (which creates
the `Proposal` and `ProposalResults` accounts with no vote records) by
any sequence of instructions. -/
inductive Reachable : World → Prop where
  | created (now : Int) (creator proposal_id : Nat) (title : String)
      (options : List String) (token_mint min_threshold : Nat)
      (voting_period_seconds : Int) (p : Proposal) (r : ProposalResults)
      (h : create_proposal now creator proposal_id title options token_mint
        min_threshold voting_period_seconds = .ok (p, r)) :
      Reachable { proposal := p, results := r, records := [] }
  | step (w : World) (hw : Reachable w) (op : Op) : Reachable (applyOp w op)

/-! ### Byte-list helper lemmas -/

theorem natToBeBytes_length (k v : Nat) : (natToBeBytes k v).length = k := by
  induction k generalizing v with
  | zero => rfl
  | succ k ih => simp [natToBeBytes, ih]

theorem natToBeBytes_valid (k v : Nat) : ValidBytes (natToBeBytes k v) := by
  induction k generalizing v with
  | zero => intro b hb; simp [natToBeBytes] at hb
  | succ k ih =>
      intro b hb
      simp only [natToBeBytes, List.mem_append, List.mem_singleton] at hb
      rcases hb with hb | hb
      · exact ih _ _ hb
      · subst hb; exact Nat.mod_lt _ (by norm_num)

theorem beBytesToNat_append_singleton (l : List Nat) (b : Nat) :
    beBytesToNat (l ++ [b]) = 256 * beBytesToNat l + b := by
  induction l with
  | nil => simp [beBytesToNat]
  | cons a l ih =>
      show a * 256 ^ (l ++ [b]).length + beBytesToNat (l ++ [b]) =
        256 * (a * 256 ^ l.length + beBytesToNat l) + b
      rw [ih, List.length_append]
      simp only [List.length_singleton]
      ring

theorem beBytesToNat_natToBeBytes (k v : Nat) (h : v < 256 ^ k) :
    beBytesToNat (natToBeBytes k v) = v := by
  induction k generalizing v with
  | zero =>
      have hv : v = 0 := by simpa using h
      simp [hv, beBytesToNat, natToBeBytes]
  | succ k ih =>
      have hdiv : v / 256 < 256 ^ k := by
        rw [Nat.div_lt_iff_lt_mul (by norm_num)]
        calc v < 256 ^ (k + 1) := h
        _ = 256 ^ k * 256 := by ring
      simp only [natToBeBytes, beBytesToNat_append_singleton, ih _ hdiv]
      exact Nat.div_add_mod v 256

theorem beBytesToNat_lt (l : List Nat) (h : ValidBytes l) :
    beBytesToNat l < 256 ^ l.length := by
  induction l with
  | nil => simp [beBytesToNat]
  | cons a l ih =>
      have ha : a < 256 := h a (by simp)
      have hl : ValidBytes l := fun b hb => h b (by simp [hb])
      have h1 : beBytesToNat l < 256 ^ l.length := ih hl
      have h2 : a * 256 ^ l.length + beBytesToNat l <
          (a + 1) * 256 ^ l.length := by
        calc a * 256 ^ l.length + beBytesToNat l
            < a * 256 ^ l.length + 256 ^ l.length := by omega
        _ = (a + 1) * 256 ^ l.length := by ring
      calc beBytesToNat (a :: l) = a * 256 ^ l.length + beBytesToNat l := rfl
      _ < (a + 1) * 256 ^ l.length := h2
      _ ≤ 256 * 256 ^ l.length := by
            exact Nat.mul_le_mul_right _ (by omega)
      _ = 256 ^ (a :: l).length := by
            simp [List.length_cons]; ring

theorem beBytesToNat_inj (l₁ l₂ : List Nat) (h₁ : ValidBytes l₁)
    (h₂ : ValidBytes l₂) (hlen : l₁.length = l₂.length)
    (h : beBytesToNat l₁ = beBytesToNat l₂) : l₁ = l₂ := by
  induction l₁ generalizing l₂ with
  | nil => cases l₂ with
      | nil => rfl
      | cons b l => simp at hlen
  | cons a l ih =>
      cases l₂ with
      | nil => simp at hlen
      | cons b m =>
          have hlen' : l.length = m.length := by simpa using hlen
          have hvl : ValidBytes l := fun x hx => h₁ x (by simp [hx])
          have hvm : ValidBytes m := fun x hx => h₂ x (by simp [hx])
          have hltl : beBytesToNat l < 256 ^ l.length := beBytesToNat_lt l hvl
          have hltm : beBytesToNat m < 256 ^ m.length := beBytesToNat_lt m hvm
          have heq : a * 256 ^ l.length + beBytesToNat l =
              b * 256 ^ m.length + beBytesToNat m := h
          rw [← hlen'] at heq hltm
          have hab : a = b := by
            by_contra hne
            rcases Nat.lt_or_ge a b with hlt | hge
            · have : (a + 1) * 256 ^ l.length ≤ b * 256 ^ l.length :=
                Nat.mul_le_mul_right _ (by omega)
              nlinarith
            · have hlt : b < a := by omega
              have : (b + 1) * 256 ^ l.length ≤ a * 256 ^ l.length :=
                Nat.mul_le_mul_right _ (by omega)
              nlinarith
          subst hab
          have htl : beBytesToNat l = beBytesToNat m :=
            Nat.add_left_cancel heq
          rw [ih m hvl hvm hlen' htl]

theorem drop_append_ge (a b : List Nat) (n : Nat) (h : a.length ≤ n) :
    (a ++ b).drop n = b.drop (n - a.length) := by
  have hn : n = a.length + (n - a.length) := by omega
  rw [hn, List.drop_append]
  congr 1
  omega

theorem getD_set_self (l : List Nat) (i b : Nat) (h : i < l.length) :
    (l.set i b).getD i 0 = b := by
  simp [List.getD, h]

theorem set_ne_self (l : List Nat) (i b : Nat) (h : i < l.length)
    (hb : b ≠ l.getD i 0) : l.set i b ≠ l := by
  intro heq
  exact hb (by rw [← getD_set_self l i b h, heq])

theorem valid_set (l : List Nat) (i b : Nat) (hl : ValidBytes l)
    (hb : b < 256) : ValidBytes (l.set i b) := by
  intro x hx
  rcases List.mem_or_eq_of_mem_set hx with h | h
  · exact hl x h
  · omega

theorem beBytesToNat_set_ne (l : List Nat) (i b : Nat) (hl : ValidBytes l)
    (hi : i < l.length) (hb : b < 256) (hne : b ≠ l.getD i 0) :
    beBytesToNat (l.set i b) ≠ beBytesToNat l := by
  intro heq
  exact set_ne_self l i b hi hne
    (beBytesToNat_inj _ _ (valid_set l i b hl hb) hl (by simp) heq)

/-! ### The canonical gnark public witness layout -/

/-- A 140-byte gnark public witness: the 4-byte big-endian input count
(4), 8 bytes of padding, then four 32-byte field elements
(spec.md section 6). -/
def mkWitness (e0 e1 e2 e3 : List Nat) : List Nat :=
  [0, 0, 0, 4] ++ ([0, 0, 0, 0, 0, 0, 0, 0] ++ (e0 ++ (e1 ++ (e2 ++ e3))))

theorem mkWitness_length (e0 e1 e2 e3 : List Nat) (h0 : e0.length = 32)
    (h1 : e1.length = 32) (h2 : e2.length = 32) (h3 : e3.length = 32) :
    (mkWitness e0 e1 e2 e3).length = 140 := by
  simp [mkWitness, h0, h1, h2, h3]

theorem slice_header (e0 e1 e2 e3 : List Nat) :
    sliceBytes (mkWitness e0 e1 e2 e3) 0 4 = [0, 0, 0, 4] := by
  rfl

theorem slice_threshold (e0 e1 e2 e3 : List Nat) (h0 : e0.length = 32) :
    sliceBytes (mkWitness e0 e1 e2 e3) 36 44 = e0.drop 24 := by
  unfold sliceBytes mkWitness
  rw [drop_append_ge [0, 0, 0, 4] _ 36 (by simp)]
  rw [drop_append_ge [0, 0, 0, 0, 0, 0, 0, 0] _ _ (by simp)]
  simp only [List.length_cons, List.length_nil]
  rw [show (36 - 4 - 8 : Nat) = 24 from rfl,
    List.drop_append_of_le_length (by omega)]
  have hlen : (e0.drop 24).length = 8 := by simp [h0]
  rw [show (44 - 36 : Nat) = 8 from rfl, ← hlen, List.take_left]

theorem slice_proposal_id (e0 e1 e2 e3 : List Nat) (h0 : e0.length = 32)
    (h1 : e1.length = 32) :
    sliceBytes (mkWitness e0 e1 e2 e3) 68 76 = e1.drop 24 := by
  unfold sliceBytes mkWitness
  rw [drop_append_ge [0, 0, 0, 4] _ 68 (by simp)]
  rw [drop_append_ge [0, 0, 0, 0, 0, 0, 0, 0] _ _ (by simp)]
  simp only [List.length_cons, List.length_nil]
  rw [show (68 - 4 - 8 : Nat) = 56 from rfl]
  rw [drop_append_ge e0 _ _ (by omega)]
  rw [h0, show (56 - 32 : Nat) = 24 from rfl,
    List.drop_append_of_le_length (by omega)]
  have hlen : (e1.drop 24).length = 8 := by simp [h1]
  rw [show (76 - 68 : Nat) = 8 from rfl, ← hlen, List.take_left]

theorem slice_commitment (e0 e1 e2 e3 : List Nat) (h0 : e0.length = 32)
    (h1 : e1.length = 32) (h2 : e2.length = 32) :
    sliceBytes (mkWitness e0 e1 e2 e3) 76 108 = e2 := by
  unfold sliceBytes mkWitness
  rw [drop_append_ge [0, 0, 0, 4] _ 76 (by simp)]
  rw [drop_append_ge [0, 0, 0, 0, 0, 0, 0, 0] _ _ (by simp)]
  simp only [List.length_cons, List.length_nil]
  rw [show (76 - 4 - 8 : Nat) = 64 from rfl]
  rw [drop_append_ge e0 _ _ (by omega), h0]
  rw [drop_append_ge e1 _ _ (by omega), h1]
  simp only [show (64 - 32 - 32 : Nat) = 0 from rfl, List.drop_zero]
  rw [show (108 - 76 : Nat) = 32 from rfl, ← h2, List.take_left]

theorem slice_nullifier (e0 e1 e2 e3 : List Nat) (h0 : e0.length = 32)
    (h1 : e1.length = 32) (h2 : e2.length = 32) (h3 : e3.length = 32) :
    sliceBytes (mkWitness e0 e1 e2 e3) 108 140 = e3 := by
  unfold sliceBytes mkWitness
  rw [drop_append_ge [0, 0, 0, 4] _ 108 (by simp)]
  rw [drop_append_ge [0, 0, 0, 0, 0, 0, 0, 0] _ _ (by simp)]
  simp only [List.length_cons, List.length_nil]
  rw [show (108 - 4 - 8 : Nat) = 96 from rfl]
  rw [drop_append_ge e0 _ _ (by omega), h0]
  rw [drop_append_ge e1 _ _ (by omega), h1]
  rw [drop_append_ge e2 _ _ (by omega), h2]
  simp only [show (96 - 32 - 32 - 32 : Nat) = 0 from rfl, List.drop_zero]
  rw [show (140 - 108 : Nat) = 32 from rfl, ← h3]
  exact List.take_length e3

/-- The canonical 32-byte scalar field element: 24 zero bytes followed by
the 8-byte big-endian encoding of a `u64`. -/
def scalarElem (v : Nat) : List Nat :=
  List.replicate 24 0 ++ natToBeBytes 8 v

theorem scalarElem_length (v : Nat) : (scalarElem v).length = 32 := by
  simp [scalarElem, natToBeBytes_length]

theorem replicate24_drop (l : List Nat) :
    (List.replicate 24 0 ++ l).drop 24 = l := by
  rw [drop_append_ge _ _ 24 (by simp)]
  simp

theorem scalarElem_drop (v : Nat) : (scalarElem v).drop 24 = natToBeBytes 8 v :=
  replicate24_drop _

/-! ### Claim C8: `start_time ≤ end_time` for created proposals -/

/-- C8 counterexample: `create_proposal` accepts a negative
`voting_period_seconds` (lib.rs lines 49-67 impose no lower bound), and
the resulting proposal has `start_time = 1000 > 999 = end_time`, so the
claimed invariant `start_time ≤ end_time` fails. -/
theorem C8_counterexample :
    create_proposal 1000 1 7 "t" ["a", "b"] 5 9 (-1) =
      .ok ({ id := 7
             creator := 1
             title := "t"
             options := ["a", "b"]
             token_mint := 5
             min_threshold := 9
             start_time := 1000
             end_time := 999
             vote_count := 0
             is_finalized := false },
           { proposal := 7
             tallies := [0, 0]
             is_finalized := false })
    ∧ ¬ ((1000 : Int) ≤ 999) := by
  constructor
  · rfl
  · decide

/-- C8 (amended): a proposal record produced by `create_proposal` has
`start_time ≤ end_time` exactly when the caller-supplied
`voting_period_seconds` is nonnegative, since `start_time = now` and
`end_time = now + voting_period_seconds` (lib.rs lines 66-67). -/
theorem C8_start_le_end_iff (now : Int) (creator proposal_id : Nat)
    (title : String) (options : List String) (token_mint min_threshold : Nat)
    (voting_period_seconds : Int) (p : Proposal) (r : ProposalResults)
    (h : create_proposal now creator proposal_id title options token_mint
      min_threshold voting_period_seconds = .ok (p, r)) :
    p.start_time ≤ p.end_time ↔ 0 ≤ voting_period_seconds := by
  unfold create_proposal at h
  split at h
  · exact absurd h (by simp)
  split at h
  · exact absurd h (by simp)
  split at h
  · exact absurd h (by simp)
  split at h
  · exact absurd h (by simp)
  simp only [Except.ok.injEq, Prod.mk.injEq] at h
  obtain ⟨hp, _⟩ := h
  rw [← hp]
  simp only
  omega

/-- C8 witness: instantiating `C8_start_le_end_iff` on a concrete
successful creation with a positive period. -/
theorem C8_start_le_end_iff_witness :
    ((1000 : Int) ≤ 1060 ↔ (0 : Int) ≤ 60) := by
  have h := C8_start_le_end_iff 1000 1 7 "t" ["a", "b"] 5 9 60
    ({ id := 7
       creator := 1
       title := "t"
       options := ["a", "b"]
       token_mint := 5
       min_threshold := 9
       start_time := 1000
       end_time := 1060
       vote_count := 0
       is_finalized := false })
    ({ proposal := 7
       tallies := [0, 0]
       is_finalized := false }) rfl
  exact h

/-! ### Claim C9: `finalize_proposal` guards and effect -/

/-- C9 counterexample: when the caller is not the creator *and*
`now ≤ end_time`, `finalize_proposal` fails with `Unauthorized`, not
with `VotingNotEnded` as the claim demands for every `now ≤ end_time`
call: Anchor evaluates the creator account constraint (lib.rs line 477)
before the handler's time check (lib.rs line 292). -/
theorem C9_counterexample :
    finalize_proposal 0 2
      ({ id := 7
         creator := 1
         title := "t"
         options := ["a", "b"]
         token_mint := 5
         min_threshold := 9
         start_time := 0
         end_time := 5
         vote_count := 0
         is_finalized := false })
      ({ proposal := 7
         tallies := [0, 0]
         is_finalized := false }) = .error .Unauthorized
    ∧ ((0 : Int) ≤ 5)
    ∧ PsephosError.Unauthorized ≠ PsephosError.VotingNotEnded := by
  refine ⟨rfl, by decide, by decide⟩

/-- C9 (amended): a non-creator caller always gets `Unauthorized`
(checked first, via the account constraint); for the creator,
`now ≤ end_time` gives `VotingNotEnded`, and `ProposalFinalized` is
returned when the window has passed but the proposal is already
finalized; every success sets both `is_finalized` flags. -/
theorem C9_finalize_behaviour (now : Int) (caller : Nat) (p : Proposal)
    (res : ProposalResults) :
    (caller ≠ p.creator →
      finalize_proposal now caller p res = .error .Unauthorized)
    ∧ (caller = p.creator → now ≤ p.end_time →
      finalize_proposal now caller p res = .error .VotingNotEnded)
    ∧ (caller = p.creator → p.end_time < now → p.is_finalized = true →
      finalize_proposal now caller p res = .error .ProposalFinalized)
    ∧ (∀ p' res', finalize_proposal now caller p res = .ok (p', res') →
      p'.is_finalized = true ∧ res'.is_finalized = true) := by
  refine ⟨?_, ?_, ?_, ?_⟩
  · intro h
    simp [finalize_proposal, h]
  · intro h ht
    simp [finalize_proposal, h, ht]
  · intro h ht hf
    rw [finalize_proposal, if_neg (by simp [h]), if_neg (by omega), if_pos hf]
  · intro p' res' h
    unfold finalize_proposal at h
    split at h
    · exact absurd h (by simp)
    split at h
    · exact absurd h (by simp)
    split at h
    · exact absurd h (by simp)
    simp only [Except.ok.injEq, Prod.mk.injEq] at h
    obtain ⟨hp, hr⟩ := h
    rw [← hp, ← hr]
    exact ⟨rfl, rfl⟩

/-- C9 witness: instantiating `C9_finalize_behaviour` concretely — the
creator finalizing after the window succeeds and sets both flags. -/
theorem C9_finalize_behaviour_witness :
    ({ id := 7
       creator := 1
       title := "t"
       options := ["a", "b"]
       token_mint := 5
       min_threshold := 9
       start_time := 0
       end_time := 5
       vote_count := 0
       is_finalized := true } : Proposal).is_finalized = true
    ∧ ({ proposal := 7
         tallies := [0, 0]
         is_finalized := true } : ProposalResults).is_finalized = true := by
  exact (C9_finalize_behaviour 10 1
    ({ id := 7
       creator := 1
       title := "t"
       options := ["a", "b"]
       token_mint := 5
       min_threshold := 9
       start_time := 0
       end_time := 5
       vote_count := 0
       is_finalized := false })
    ({ proposal := 7
       tallies := [0, 0]
       is_finalized := false })).2.2.2 _ _ rfl

/-- The proof-validation block can only produce its six own errors. -/
theorem proof_checks_range (p : Proposal) (n c pf wit : List Nat)
    (e : PsephosError)
    (h : proof_checks p n c pf wit = some e) :
    e = .InvalidProof ∨ e = .InvalidPublicWitness ∨ e = .ThresholdMismatch ∨
    e = .ProposalIdMismatch ∨ e = .CommitmentMismatch ∨
    e = .NullifierMismatch := by
  unfold proof_checks at h
  repeat' split at h
  all_goals simp_all

/-- The proof-validation block returns `InvalidProof` exactly for a
proof length outside `[256, 452]`. -/
theorem proof_checks_invalid_proof_iff (p : Proposal) (n c pf wit : List Nat) :
    proof_checks p n c pf wit = some .InvalidProof ↔
    (pf.length < 256 ∨ 452 < pf.length) := by
  have hMIN : MIN_PROOF_SIZE = 256 := rfl
  have hMAX : GNARK_PROOF_SIZE + 64 = 452 := rfl
  constructor
  · intro h
    by_contra hno
    push_neg at hno
    obtain ⟨ha, hb⟩ := hno
    rw [proof_checks, if_neg (by omega), if_neg (by omega)] at h
    repeat' split at h
    all_goals simp_all
  · intro h
    rcases h with h | h
    · rw [proof_checks, if_pos (by omega)]
    · rw [proof_checks, if_neg (by omega), if_pos (by omega)]

/-! ### Inversion lemmas for successful instructions -/

theorem create_proposal_ok_inv (now : Int) (creator proposal_id : Nat)
    (title : String) (options : List String) (token_mint min_threshold : Nat)
    (voting_period_seconds : Int) (p : Proposal) (r : ProposalResults)
    (h : create_proposal now creator proposal_id title options token_mint
      min_threshold voting_period_seconds = .ok (p, r)) :
    p.options = options ∧ p.vote_count = 0 ∧ p.is_finalized = false ∧
    r.tallies = List.replicate options.length 0 ∧ r.is_finalized = false := by
  unfold create_proposal at h
  split at h
  · exact absurd h (by simp)
  split at h
  · exact absurd h (by simp)
  split at h
  · exact absurd h (by simp)
  split at h
  · exact absurd h (by simp)
  simp only [Except.ok.injEq, Prod.mk.injEq] at h
  obtain ⟨hp, hr⟩ := h
  rw [← hp, ← hr]
  exact ⟨rfl, rfl, rfl, rfl, rfl⟩

theorem cast_vote_ok_inv (now : Int) (p : Proposal)
    (existing : Option VoteRecord) (bal : Nat) (verdict : Except Nat Unit)
    (n c pf wit : List Nat) (p' : Proposal) (rec : VoteRecord)
    (h : cast_vote now p existing bal verdict n c pf wit = .ok (p', rec)) :
    existing = none
    ∧ p' = { p with vote_count := p.vote_count + 1 }
    ∧ rec = { proposal := p.id
              nullifier := n
              vote_commitment := c
              timestamp := now
              is_revealed := false
              revealed_choice := none } := by
  cases existing with
  | some r =>
      rw [cast_vote.eq_def] at h
      simp at h
  | none =>
      refine ⟨rfl, ?_⟩
      rw [cast_vote.eq_def, if_neg (by simp)] at h
      split at h
      · exact absurd h (by simp)
      split at h
      · exact absurd h (by simp)
      split at h
      · exact absurd h (by simp)
      split at h
      · exact absurd h (by simp)
      split at h
      · exact absurd h (by simp)
      split at h
      · exact absurd h (by simp)
      simp only [Except.ok.injEq, Prod.mk.injEq] at h
      exact ⟨h.1.symm, h.2.symm⟩

theorem reveal_vote_ok_inv (now : Int) (p : Proposal) (rec : VoteRecord)
    (res : ProposalResults) (choice : Nat) (rec' : VoteRecord)
    (res' : ProposalResults)
    (h : reveal_vote now p rec res choice = .ok (rec', res')) :
    p.end_time < now ∧ p.is_finalized = false ∧ choice < p.options.length
    ∧ rec.is_revealed = false ∧ choice < res.tallies.length
    ∧ rec' = { rec with
               is_revealed := true
               revealed_choice := some choice }
    ∧ res' = { res with
               tallies := res.tallies.set choice
                 (res.tallies.getD choice 0 + 1) } := by
  unfold reveal_vote at h
  split at h
  · exact absurd h (by simp)
  rename_i h1
  split at h
  · exact absurd h (by simp)
  rename_i h2
  split at h
  · exact absurd h (by simp)
  rename_i h3
  split at h
  · exact absurd h (by simp)
  rename_i h4
  split at h
  · rename_i h5
    simp only [Except.ok.injEq, Prod.mk.injEq] at h
    exact ⟨by omega, by simpa using h2, by omega, by simpa using h4, h5,
      h.1.symm, h.2.symm⟩
  · exact absurd h (by simp)

theorem finalize_proposal_ok_inv (now : Int) (caller : Nat) (p : Proposal)
    (res : ProposalResults) (p' : Proposal) (res' : ProposalResults)
    (h : finalize_proposal now caller p res = .ok (p', res')) :
    caller = p.creator ∧ p.end_time < now ∧ p.is_finalized = false
    ∧ p' = { p with is_finalized := true }
    ∧ res' = { res with is_finalized := true } := by
  unfold finalize_proposal at h
  split at h
  · exact absurd h (by simp)
  rename_i h1
  split at h
  · exact absurd h (by simp)
  rename_i h2
  split at h
  · exact absurd h (by simp)
  rename_i h3
  simp only [Except.ok.injEq, Prod.mk.injEq] at h
  exact ⟨by simpa using h1, by omega, by simpa using h3, h.1.symm, h.2.symm⟩

/-! ### Lemmas about the record store -/

theorem findRecord_nullifier (l : List VoteRecord) (n : List Nat)
    (r : VoteRecord) (h : findRecord l n = some r) : r.nullifier = n := by
  have := List.find?_some h
  simpa using this

theorem findRecord_cons (r : VoteRecord) (l : List VoteRecord) (n : List Nat) :
    findRecord (r :: l) n =
      if r.nullifier = n then some r else findRecord l n := by
  by_cases h : r.nullifier = n
  · rw [if_pos h]
    exact List.find?_cons_of_pos _ (by simpa using h)
  · rw [if_neg h]
    exact List.find?_cons_of_neg _ (by simpa using h)

theorem findRecord_none_not_mem (l : List VoteRecord) (n : List Nat)
    (h : findRecord l n = none) :
    n ∉ l.map (fun r => r.nullifier) := by
  intro hmem
  rcases List.mem_map.mp hmem with ⟨r, hr, hrn⟩
  have := List.find?_eq_none.mp h r hr
  simp at this
  exact this hrn

theorem map_nullifier_setRecord (l : List VoteRecord) (n : List Nat)
    (r' : VoteRecord) (h : r'.nullifier = n) :
    (setRecord l n r').map (fun r => r.nullifier) =
      l.map (fun r => r.nullifier) := by
  induction l with
  | nil => rfl
  | cons a l ih =>
      unfold setRecord
      by_cases ha : a.nullifier = n
      · rw [if_pos ha]
        simp [h, ha]
      · rw [if_neg ha]
        simp [ih]

theorem countP_setRecord_reveal (l : List VoteRecord) (n : List Nat)
    (r rec' : VoteRecord) (hf : findRecord l n = some r)
    (hr : r.is_revealed = false) (hr' : rec'.is_revealed = true) :
    (setRecord l n rec').countP (fun x => x.is_revealed) =
      l.countP (fun x => x.is_revealed) + 1 := by
  induction l with
  | nil => simp [findRecord] at hf
  | cons a l ih =>
      rw [findRecord_cons] at hf
      by_cases ha : a.nullifier = n
      · rw [if_pos ha] at hf
        injection hf with hf
        subst hf
        unfold setRecord
        rw [if_pos ha]
        simp [List.countP_cons, hr, hr']
      · rw [if_neg ha] at hf
        unfold setRecord
        rw [if_neg ha]
        simp only [List.countP_cons, ih hf]
        omega

theorem findRecord_setRecord_ne (l : List VoteRecord) (m n : List Nat)
    (r' : VoteRecord) (hm : r'.nullifier = m) (hne : m ≠ n) :
    findRecord (setRecord l m r') n = findRecord l n := by
  induction l with
  | nil => rfl
  | cons a l ih =>
      unfold setRecord
      by_cases ha : a.nullifier = m
      · rw [if_pos ha, findRecord_cons, findRecord_cons,
          if_neg (by rw [hm]; exact hne), if_neg (by rw [ha]; exact hne)]
      · rw [if_neg ha, findRecord_cons, findRecord_cons]
        by_cases han : a.nullifier = n
        · rw [if_pos han, if_pos han]
        · rw [if_neg han, if_neg han, ih]

theorem sum_set_getD_succ (l : List Nat) (i : Nat) (h : i < l.length) :
    (l.set i (l.getD i 0 + 1)).sum = l.sum + 1 := by
  induction l generalizing i with
  | nil => simp at h
  | cons a l ih =>
      cases i with
      | zero => simp [List.sum_cons, List.getD]; omega
      | succ i =>
          have hi : i < l.length := by simpa using h
          simp only [List.set_cons_succ, List.getD_cons_succ, List.sum_cons,
            ih i hi]
          omega

/-! ### The global state invariant -/

/-- The reachable-state invariant: the tally sum counts the revealed
records, the tally vector has one entry per option, and vote-record
nullifiers are pairwise distinct. -/
def WorldInv (w : World) : Prop :=
  w.results.tallies.sum = w.records.countP (fun r => r.is_revealed)
  ∧ w.results.tallies.length = w.proposal.options.length
  ∧ (w.records.map (fun r => r.nullifier)).Nodup

theorem applyOp_inv (w : World) (hw : WorldInv w) (op : Op) :
    WorldInv (applyOp w op) := by
  obtain ⟨hsum, hlen, hnodup⟩ := hw
  cases op with
  | cast now bal verdict n c pf wit =>
      simp only [applyOp, castVoteWorld]
      cases hc : cast_vote now w.proposal (findRecord w.records n) bal verdict
          n c pf wit with
      | error e =>
          simp only [hc]
          exact ⟨hsum, hlen, hnodup⟩
      | ok pr =>
          obtain ⟨p', rec⟩ := pr
          obtain ⟨hex, hp', hrec⟩ := cast_vote_ok_inv _ _ _ _ _ _ _ _ _ _ _ hc
          simp only [hc]
          refine ⟨?_, ?_, ?_⟩
          · simp only [List.countP_cons, hrec]
            simpa using hsum
          · simp only [hp']
            exact hlen
          · simp only [List.map_cons, hrec]
            exact List.Nodup.cons (findRecord_none_not_mem _ _ hex) hnodup
  | reveal now n choice =>
      simp only [applyOp, revealVoteWorld]
      cases hf : findRecord w.records n with
      | none =>
          simp only [hf]
          exact ⟨hsum, hlen, hnodup⟩
      | some rec =>
          simp only [hf]
          cases hr : reveal_vote now w.proposal rec w.results choice with
          | error e =>
              simp only [hr]
              exact ⟨hsum, hlen, hnodup⟩
          | ok pr =>
              obtain ⟨rec', res'⟩ := pr
              obtain ⟨ht, hfin, hch, hunrev, hbound, hrec', hres'⟩ :=
                reveal_vote_ok_inv _ _ _ _ _ _ _ hr
              simp only [hr]
              refine ⟨?_, ?_, ?_⟩
              · simp only [hres']
                rw [sum_set_getD_succ _ _ hbound, hsum,
                  countP_setRecord_reveal w.records n rec rec' hf hunrev
                    (by simp [hrec'])]
              · simp only [hres', List.length_set]
                exact hlen
              · rw [map_nullifier_setRecord w.records n rec'
                  (by simp [hrec', findRecord_nullifier _ _ _ hf])]
                exact hnodup
  | finalize now caller =>
      simp only [applyOp, finalizeWorld]
      cases hfin : finalize_proposal now caller w.proposal w.results with
      | error e =>
          simp only [hfin]
          exact ⟨hsum, hlen, hnodup⟩
      | ok pr =>
          obtain ⟨p', res'⟩ := pr
          obtain ⟨hc, ht, hf, hp', hres'⟩ :=
            finalize_proposal_ok_inv _ _ _ _ _ _ hfin
          simp only [hfin]
          exact ⟨by simp [hres', hsum], by simp [hres', hp', hlen], hnodup⟩

theorem reachable_inv (w : World) (h : Reachable w) : WorldInv w := by
  induction h with
  | created now creator pid title options mint thr period p r hok =>
      obtain ⟨hopts, hvc, hfin, htal, hrfin⟩ :=
        create_proposal_ok_inv _ _ _ _ _ _ _ _ _ _ hok
      refine ⟨?_, ?_, ?_⟩
      · simp [htal, List.sum_replicate]
      · simp [htal, hopts]
      · simp
  | step w hw op ih => exact applyOp_inv w ih op

/-! ### Concrete fixtures shared by witnesses and counterexamples -/

/-- A well-formed open proposal: id 42, threshold 100, window [0, 100]. -/
def pDemo : Proposal :=
  { id := 42
    creator := 1
    title := "t"
    options := ["a", "b"]
    token_mint := 5
    min_threshold := 100
    start_time := 0
    end_time := 100
    vote_count := 0
    is_finalized := false }

/-- The results account created alongside `pDemo`. -/
def rDemo : ProposalResults :=
  { proposal := 42
    tallies := [0, 0]
    is_finalized := false }

/-- A concrete 32-byte nullifier. -/
def nDemo : List Nat := List.replicate 32 9

/-- A concrete 32-byte vote commitment. -/
def cDemo : List Nat := List.replicate 32 7

/-- A concrete proof blob of the canonical 388-byte size. -/
def proofDemo : List Nat := List.replicate 388 0

/-- The canonical witness matching `pDemo`, `cDemo`, `nDemo`. -/
def witDemo : List Nat :=
  mkWitness (scalarElem 100) (scalarElem 42) cDemo nDemo

/-- The vote record created by a successful cast of `nDemo` at time 50. -/
def recDemo : VoteRecord :=
  { proposal := 42
    nullifier := nDemo
    vote_commitment := cDemo
    timestamp := 50
    is_revealed := false
    revealed_choice := none }

/-- `recDemo` after a successful reveal of choice 0. -/
def recRev : VoteRecord :=
  { proposal := 42
    nullifier := nDemo
    vote_commitment := cDemo
    timestamp := 50
    is_revealed := true
    revealed_choice := some 0 }

/-- The world right after `pDemo`'s creation. -/
def wDemo : World :=
  { proposal := pDemo
    results := rDemo
    records := [] }

/-- The world after one successful cast of `nDemo` into `wDemo`. -/
def w1Demo : World :=
  { proposal := { pDemo with vote_count := 1 }
    results := rDemo
    records := [recDemo] }

theorem wDemo_reachable : Reachable wDemo :=
  Reachable.created 0 1 42 "t" ["a", "b"] 5 100 100 pDemo rDemo rfl

theorem w1Demo_reachable : Reachable w1Demo := by
  have h := Reachable.step wDemo wDemo_reachable
    (.cast 50 1000 (.ok ()) nDemo cDemo proofDemo witDemo)
  have heq : applyOp wDemo
      (.cast 50 1000 (.ok ()) nDemo cDemo proofDemo witDemo) = w1Demo := by
    decide
  rwa [heq] at h

/-! ### Claim C5: the voting-window checks of `cast_vote` -/

/-- C5 counterexample: for a proposal whose window is inverted
(`start_time = 100 > 50 = end_time`, creatable because
`create_proposal` accepts negative periods), a cast at `now = 70`
satisfies `now > end_time` yet fails with `VotingNotStarted`, not
`VotingEnded`: lib.rs line 109 checks the start bound first. -/
theorem C5_counterexample :
    cast_vote 70
      ({ id := 42
         creator := 1
         title := "t"
         options := ["a", "b"]
         token_mint := 5
         min_threshold := 100
         start_time := 100
         end_time := 50
         vote_count := 0
         is_finalized := false })
      none 1000 (.ok ()) nDemo cDemo proofDemo witDemo =
      .error (.program .VotingNotStarted)
    ∧ ((50 : Int) < 70)
    ∧ (CastErr.program .VotingNotStarted ≠ CastErr.program .VotingEnded) := by
  refine ⟨rfl, by decide, by decide⟩

/-- C5 (amended): for calls where the vote-record account can be created
(`existing = none`): `now < start_time` always yields `VotingNotStarted`
regardless of every other input; `now ≥ start_time` together with
`now > end_time` always yields `VotingEnded`; and when
`start_time ≤ end_time`, calls at exactly `start_time` or exactly
`end_time` pass the window check (both bounds inclusive, lib.rs lines
109-110). -/
theorem C5_window_check (now : Int) (p : Proposal) (bal : Nat)
    (verdict : Except Nat Unit) (n c pf wit : List Nat) :
    (now < p.start_time →
      cast_vote now p none bal verdict n c pf wit =
        .error (.program .VotingNotStarted))
    ∧ (p.start_time ≤ now → p.end_time < now →
      cast_vote now p none bal verdict n c pf wit =
        .error (.program .VotingEnded))
    ∧ (p.start_time ≤ p.end_time → (now = p.start_time ∨ now = p.end_time) →
      cast_vote now p none bal verdict n c pf wit ≠
        .error (.program .VotingNotStarted)
      ∧ cast_vote now p none bal verdict n c pf wit ≠
        .error (.program .VotingEnded)) := by
  refine ⟨?_, ?_, ?_⟩
  · intro h
    rw [cast_vote.eq_def, if_neg (by simp), if_pos h]
  · intro h1 h2
    rw [cast_vote.eq_def, if_neg (by simp), if_neg (by omega), if_pos h2]
  · intro hle hor
    have h1 : ¬ now < p.start_time := by rcases hor with h | h <;> omega
    have h2 : ¬ p.end_time < now := by rcases hor with h | h <;> omega
    constructor
    · intro hc
      rw [cast_vote.eq_def, if_neg (by simp), if_neg h1, if_neg h2] at hc
      split at hc
      · simp at hc
      split at hc
      · simp at hc
      split at hc
      · rename_i e heq
        rcases proof_checks_range p n c pf wit e heq with
          h | h | h | h | h | h <;> simp [h] at hc
      split at hc <;> simp at hc
    · intro hc
      rw [cast_vote.eq_def, if_neg (by simp), if_neg h1, if_neg h2] at hc
      split at hc
      · simp at hc
      split at hc
      · simp at hc
      split at hc
      · rename_i e heq
        rcases proof_checks_range p n c pf wit e heq with
          h | h | h | h | h | h <;> simp [h] at hc
      split at hc <;> simp at hc

/-- C5 witness: instantiating `C5_window_check` concretely — a cast
before `pDemo`'s window fails with `VotingNotStarted`. -/
theorem C5_window_check_witness :
    cast_vote (-1) pDemo none 1000 (.ok ()) nDemo cDemo proofDemo witDemo =
      .error (.program .VotingNotStarted) :=
  (C5_window_check (-1) pDemo 1000 (.ok ()) nDemo cDemo proofDemo
    witDemo).1 (by decide)

/-! ### Claim C6: the proof-size check of `cast_vote` -/

/-- C6: a call that reaches the proof-size check (window open, not
finalized, sufficient balance) fails with `InvalidProof` exactly when
`proof.len()` lies outside `[MIN_PROOF_SIZE, GNARK_PROOF_SIZE + 64]`
= `[256, 452]` (lib.rs lines 131-132); no other part of `cast_vote`
produces `InvalidProof`. -/
theorem C6_proof_size (now : Int) (p : Proposal) (bal : Nat)
    (verdict : Except Nat Unit) (n c pf wit : List Nat)
    (h1 : p.start_time ≤ now) (h2 : now ≤ p.end_time)
    (h3 : p.is_finalized = false) (h4 : p.min_threshold ≤ bal) :
    cast_vote now p none bal verdict n c pf wit =
      .error (.program .InvalidProof) ↔
    (pf.length < 256 ∨ 452 < pf.length) := by
  rw [cast_vote.eq_def, if_neg (by simp), if_neg (by omega), if_neg (by omega),
    if_neg (by simp [h3]), if_neg (by omega)]
  constructor
  · intro h
    split at h
    · rename_i e heq
      simp only [Except.error.injEq, CastErr.program.injEq] at h
      rw [h] at heq
      exact (proof_checks_invalid_proof_iff p n c pf wit).mp heq
    · split at h <;> simp at h
  · intro h
    have heq : proof_checks p n c pf wit = some .InvalidProof :=
      (proof_checks_invalid_proof_iff p n c pf wit).mpr h
    rw [heq]

/-- C6 witness: instantiating `C6_proof_size` concretely — a 255-byte
proof against the open `pDemo` is rejected with `InvalidProof`. -/
theorem C6_proof_size_witness :
    cast_vote 50 pDemo none 1000 (.ok ()) nDemo cDemo
      (List.replicate 255 0) witDemo = .error (.program .InvalidProof) :=
  (C6_proof_size 50 pDemo 1000 (.ok ()) nDemo cDemo
    (List.replicate 255 0) witDemo (by decide) (by decide) (by decide)
    (by decide)).mpr (Or.inl (by simp only [List.length_replicate]; omega))

/-! ### Claim C1: at most one VoteRecord per (proposal, nullifier) -/

/-- C1: in every reachable state the vote-record nullifiers are pairwise
distinct (so at most one `VoteRecord` per `(proposal, nullifier)` is
ever created), and a `cast_vote` for a nullifier whose record already
exists fails with the exclusive-creation error, leaving the state
unchanged (lib.rs lines 418-425: the PDA `init` is exclusive). -/
theorem C1_at_most_one_record (w : World) (h : Reachable w) :
    (w.records.map (fun r => r.nullifier)).Nodup
    ∧ ∀ (now : Int) (bal : Nat) (verdict : Except Nat Unit)
        (n c pf wit : List Nat),
      (∃ r ∈ w.records, r.nullifier = n) →
      castVoteWorld now bal verdict n c pf wit w = .error .recordExists
      ∧ applyOp w (.cast now bal verdict n c pf wit) = w := by
  refine ⟨(reachable_inv w h).2.2, ?_⟩
  intro now bal verdict n c pf wit hex
  have hsome : (findRecord w.records n).isSome := by
    unfold findRecord
    rw [List.find?_isSome]
    obtain ⟨r, hr, hrn⟩ := hex
    exact ⟨r, hr, by simp [hrn]⟩
  have herr : castVoteWorld now bal verdict n c pf wit w =
      .error .recordExists := by
    obtain ⟨rec, hrec⟩ := Option.isSome_iff_exists.mp hsome
    simp only [castVoteWorld, hrec]
    rw [cast_vote.eq_def, if_pos (by simp)]
  refine ⟨herr, ?_⟩
  simp only [applyOp, herr]

/-- C1 witness: instantiating `C1_at_most_one_record` on the reachable
world `w1Demo` that already holds a record for `nDemo`. -/
theorem C1_at_most_one_record_witness :
    castVoteWorld 60 1000 (.ok ()) nDemo cDemo proofDemo witDemo w1Demo =
      .error .recordExists
    ∧ applyOp w1Demo (.cast 60 1000 (.ok ()) nDemo cDemo proofDemo witDemo) =
      w1Demo :=
  (C1_at_most_one_record w1Demo w1Demo_reachable).2 60 1000 (.ok ())
    nDemo cDemo proofDemo witDemo ⟨recDemo, by simp [w1Demo], rfl⟩

/-! ### Claim C4: tally sum equals revealed-record count -/

/-- C4: at every reachable state after a proposal's creation, the sum of
`results.tallies` equals the number of `VoteRecord`s with
`is_revealed = true` (tallies start all-zero at creation, lib.rs line
75, and each successful reveal flips one record and increments one tally
in the same operation, lib.rs lines 276-281). -/
theorem C4_tally_sum_eq_revealed_count (w : World) (h : Reachable w) :
    w.results.tallies.sum = w.records.countP (fun r => r.is_revealed) :=
  (reachable_inv w h).1

/-- C4 witness: instantiating `C4_tally_sum_eq_revealed_count` on the
freshly created `wDemo`. -/
theorem C4_tally_sum_eq_revealed_count_witness :
    rDemo.tallies.sum = ([] : List VoteRecord).countP (fun r => r.is_revealed) :=
  C4_tally_sum_eq_revealed_count wDemo wDemo_reachable

/-! ### Claim C7: reveal-once -/

/-- `reveal_vote` cannot hit the tally-indexing panic when the tally
vector is as long as the option list. -/
theorem reveal_vote_no_panic (now : Int) (p : Proposal) (rec : VoteRecord)
    (res : ProposalResults) (choice : Nat)
    (hlen : res.tallies.length = p.options.length) :
    reveal_vote now p rec res choice ≠ .error .tallyIndexOutOfBounds := by
  intro hcon
  unfold reveal_vote at hcon
  split at hcon
  · simp at hcon
  split at hcon
  · simp at hcon
  split at hcon
  · simp at hcon
  rename_i h3
  split at hcon
  · simp at hcon
  split at hcon
  · simp at hcon
  rename_i h5
  omega

/-- C7 counterexample: a `reveal_vote` on an already-revealed record
with an out-of-range `vote_choice` fails with `InvalidVoteChoice`, not
`AlreadyRevealed`: lib.rs line 266 checks the choice before line 269
checks `is_revealed`. -/
theorem C7_counterexample :
    reveal_vote 200 pDemo recRev rDemo 5 =
      .error (.program .InvalidVoteChoice)
    ∧ recRev.is_revealed = true
    ∧ (RevealErr.program .InvalidVoteChoice ≠
        RevealErr.program .AlreadyRevealed) := by
  refine ⟨rfl, rfl, by decide⟩

/-- C7 (amended): a `reveal_vote` on an already-revealed record never
succeeds — so no tally is ever incremented twice for the same record and
the state is left unchanged — and it fails with `AlreadyRevealed`
whenever the window, finalization and choice guards pass; moreover
`is_revealed`, once true, stays true across every further instruction. -/
theorem C7_reveal_once (now : Int) (p : Proposal) (rec : VoteRecord)
    (res : ProposalResults) (choice : Nat) (h : rec.is_revealed = true) :
    (∀ out, reveal_vote now p rec res choice ≠ .ok out)
    ∧ (p.end_time < now → p.is_finalized = false →
        choice < p.options.length →
        reveal_vote now p rec res choice = .error (.program .AlreadyRevealed))
    ∧ (∀ (w : World) (n : List Nat), w.proposal = p → w.results = res →
        findRecord w.records n = some rec →
        applyOp w (.reveal now n choice) = w)
    ∧ (∀ (w : World) (op : Op) (n : List Nat),
        findRecord w.records n = some rec →
        ∃ rec', findRecord (applyOp w op).records n = some rec'
          ∧ rec'.is_revealed = true) := by
  refine ⟨?_, ?_, ?_, ?_⟩
  · intro out hcon
    obtain ⟨rec', res'⟩ := out
    have hun := (reveal_vote_ok_inv _ _ _ _ _ _ _ hcon).2.2.2.1
    rw [h] at hun
    exact absurd hun (by simp)
  · intro ht hfin hch
    rw [reveal_vote, if_neg (by omega), if_neg (by simp [hfin]),
      if_neg (by omega), if_pos h]
  · intro w n hp hres hf
    simp only [applyOp, revealVoteWorld, hf]
    cases hr : reveal_vote now w.proposal rec w.results choice with
    | error e => simp [hr]
    | ok pr =>
        exfalso
        obtain ⟨rec', res'⟩ := pr
        have hun := (reveal_vote_ok_inv _ _ _ _ _ _ _ hr).2.2.2.1
        rw [h] at hun
        exact absurd hun (by simp)
  · intro w op n hf
    cases op with
    | cast now2 bal verdict n2 c2 pf2 wit2 =>
        simp only [applyOp, castVoteWorld]
        cases hc : cast_vote now2 w.proposal (findRecord w.records n2) bal
            verdict n2 c2 pf2 wit2 with
        | error e =>
            simp only [hc]
            exact ⟨rec, hf, h⟩
        | ok pr =>
            obtain ⟨p', rec0⟩ := pr
            obtain ⟨hex, hp', hrec0⟩ :=
              cast_vote_ok_inv _ _ _ _ _ _ _ _ _ _ _ hc
            have hne : rec0.nullifier ≠ n := by
              rw [hrec0]
              intro heq
              simp only at heq
              rw [heq] at hex
              rw [hex] at hf
              exact absurd hf (by simp)
            simp only [hc]
            refine ⟨rec, ?_, h⟩
            rw [findRecord_cons, if_neg hne]
            exact hf
    | reveal now2 n2 choice2 =>
        simp only [applyOp, revealVoteWorld]
        cases hf2 : findRecord w.records n2 with
        | none =>
            simp only [hf2]
            exact ⟨rec, hf, h⟩
        | some rec0 =>
            simp only [hf2]
            cases hr : reveal_vote now2 w.proposal rec0 w.results choice2 with
            | error e =>
                simp only [hr]
                exact ⟨rec, hf, h⟩
            | ok pr =>
                obtain ⟨rec'', res''⟩ := pr
                have hun := (reveal_vote_ok_inv _ _ _ _ _ _ _ hr).2.2.2.1
                have hrec'' := (reveal_vote_ok_inv _ _ _ _ _ _ _ hr).2.2.2.2.2.1
                have hne : n2 ≠ n := by
                  intro heq
                  rw [heq] at hf2
                  rw [hf2] at hf
                  injection hf with hf
                  rw [hf] at hun
                  rw [h] at hun
                  exact absurd hun (by simp)
                simp only [hr]
                refine ⟨rec, ?_, h⟩
                rw [findRecord_setRecord_ne w.records n2 n rec''
                  (by simp [hrec'', findRecord_nullifier _ _ _ hf2]) hne]
                exact hf
    | finalize now2 caller =>
        simp only [applyOp, finalizeWorld]
        cases hfz : finalize_proposal now2 caller w.proposal w.results with
        | error e =>
            simp only [hfz]
            exact ⟨rec, hf, h⟩
        | ok pr =>
            obtain ⟨p', res'⟩ := pr
            simp only [hfz]
            exact ⟨rec, hf, h⟩

/-- C7 witness: instantiating `C7_reveal_once` — a second reveal of the
already-revealed `recRev` with a valid choice after the window fails
with `AlreadyRevealed`. -/
theorem C7_reveal_once_witness :
    reveal_vote 200 pDemo recRev rDemo 0 =
      .error (.program .AlreadyRevealed) :=
  (C7_reveal_once 200 pDemo recRev rDemo 0 rfl).2.1 (by decide) (by decide)
    (by decide)

/-! ### Claim C10: tally vector length and in-bounds indexing -/

/-- C10: in every reachable state `results.tallies.len()` equals
`proposal.options.len()` (fixed at creation, lib.rs line 75, and never
resized), so the `results.tallies[vote_choice]` access in `reveal_vote`
(lib.rs line 281) can never go out of bounds: no reveal transition ever
produces the indexing panic. -/
theorem C10_tallies_length_no_panic (w : World) (h : Reachable w) :
    w.results.tallies.length = w.proposal.options.length
    ∧ ∀ (now : Int) (n : List Nat) (choice : Nat),
      revealVoteWorld now n choice w ≠ .error .tallyIndexOutOfBounds := by
  have hlen := (reachable_inv w h).2.1
  refine ⟨hlen, ?_⟩
  intro now n choice
  unfold revealVoteWorld
  cases hf : findRecord w.records n with
  | none => simp [hf]
  | some rec =>
      simp only [hf]
      cases hr : reveal_vote now w.proposal rec w.results choice with
      | error e =>
          simp only [hr]
          intro hcon
          simp only [Except.error.injEq] at hcon
          exact reveal_vote_no_panic now w.proposal rec w.results choice hlen
            (by rw [hr, hcon])
      | ok pr =>
          obtain ⟨rec', res'⟩ := pr
          simp [hr]

/-- C10 witness: instantiating `C10_tallies_length_no_panic` on the
reachable world `wDemo`. -/
theorem C10_tallies_length_no_panic_witness :
    rDemo.tallies.length = pDemo.options.length
    ∧ revealVoteWorld 10 nDemo 0 wDemo ≠ .error .tallyIndexOutOfBounds :=
  ⟨(C10_tallies_length_no_panic wDemo wDemo_reachable).1,
   (C10_tallies_length_no_panic wDemo wDemo_reachable).2 10 nDemo 0⟩

/-! ### Evaluating `proof_checks` on canonical and corrupted witnesses -/

/-- A canonical witness matching the proposal and the submitted
commitment and nullifier passes every check. -/
theorem proof_checks_canonical (p : Proposal) (C N pf : List Nat)
    (hC : C.length = 32) (hN : N.length = 32)
    (ht : p.min_threshold < 2 ^ 64) (hid : p.id < 2 ^ 64)
    (hpf1 : 256 ≤ pf.length) (hpf2 : pf.length ≤ 452) :
    proof_checks p N C pf
      (mkWitness (scalarElem p.min_threshold) (scalarElem p.id) C N) =
      none := by
  have hwlen := mkWitness_length (scalarElem p.min_threshold)
    (scalarElem p.id) C N (scalarElem_length _) (scalarElem_length _) hC hN
  have hhdr : beBytesToNat (sliceBytes
      (mkWitness (scalarElem p.min_threshold) (scalarElem p.id) C N) 0 4) =
      NUM_PUBLIC_INPUTS := by
    rw [slice_header]
    rfl
  have hthr : beBytesToNat (sliceBytes
      (mkWitness (scalarElem p.min_threshold) (scalarElem p.id) C N) 36 44) =
      p.min_threshold := by
    rw [slice_threshold _ _ _ _ (scalarElem_length _), scalarElem_drop,
      beBytesToNat_natToBeBytes 8 _ ht]
  have hpid : beBytesToNat (sliceBytes
      (mkWitness (scalarElem p.min_threshold) (scalarElem p.id) C N) 68 76) =
      p.id := by
    rw [slice_proposal_id _ _ _ _ (scalarElem_length _) (scalarElem_length _),
      scalarElem_drop, beBytesToNat_natToBeBytes 8 _ hid]
  have hcom := slice_commitment (scalarElem p.min_threshold)
    (scalarElem p.id) C N (scalarElem_length _) (scalarElem_length _) hC
  have hnul := slice_nullifier (scalarElem p.min_threshold)
    (scalarElem p.id) C N (scalarElem_length _) (scalarElem_length _) hC hN
  have hMIN : MIN_PROOF_SIZE = 256 := rfl
  have hMAX : GNARK_PROOF_SIZE + 64 = 452 := rfl
  have hEXP : expected_witness_size = 140 := rfl
  unfold proof_checks
  rw [if_neg (by omega), if_neg (by omega), if_neg (by omega),
    if_neg (fun hcon => hcon.2 hhdr), if_neg (fun hcon => hcon.2 hthr), if_neg (fun hcon => hcon.2 hpid),
    if_neg (fun hcon => hcon.2 hcom), if_neg (fun hcon => hcon.2 hnul)]

/-- Corrupting one byte of the low 8 bytes of witness element 0 makes
the threshold cross-check fail. -/
theorem proof_checks_threshold_flip (p : Proposal) (C N pf : List Nat)
    (hC : C.length = 32) (hN : N.length = 32)
    (ht : p.min_threshold < 2 ^ 64)
    (hpf1 : 256 ≤ pf.length) (hpf2 : pf.length ≤ 452)
    (i b : Nat) (hi : i < 8) (hb : b < 256)
    (hne : b ≠ (natToBeBytes 8 p.min_threshold).getD i 0) :
    proof_checks p N C pf
      (mkWitness
        (List.replicate 24 0 ++ (natToBeBytes 8 p.min_threshold).set i b)
        (scalarElem p.id) C N) = some .ThresholdMismatch := by
  have he0len : (List.replicate 24 0 ++
      (natToBeBytes 8 p.min_threshold).set i b).length = 32 := by
    simp [List.length_set, natToBeBytes_length]
  have hwlen := mkWitness_length
    (List.replicate 24 0 ++ (natToBeBytes 8 p.min_threshold).set i b)
    (scalarElem p.id) C N he0len (scalarElem_length _) hC hN
  have hhdr : beBytesToNat (sliceBytes
      (mkWitness
        (List.replicate 24 0 ++ (natToBeBytes 8 p.min_threshold).set i b)
        (scalarElem p.id) C N) 0 4) = NUM_PUBLIC_INPUTS := by
    rw [slice_header]
    rfl
  have hthr : beBytesToNat (sliceBytes
      (mkWitness
        (List.replicate 24 0 ++ (natToBeBytes 8 p.min_threshold).set i b)
        (scalarElem p.id) C N) 36 44) ≠ p.min_threshold := by
    rw [slice_threshold _ _ _ _ he0len, replicate24_drop]
    have hstep := beBytesToNat_set_ne (natToBeBytes 8 p.min_threshold) i b
      (natToBeBytes_valid 8 _) (by rw [natToBeBytes_length]; exact hi) hb hne
    rw [beBytesToNat_natToBeBytes 8 _ ht] at hstep
    exact hstep
  have hMIN : MIN_PROOF_SIZE = 256 := rfl
  have hMAX : GNARK_PROOF_SIZE + 64 = 452 := rfl
  have hEXP : expected_witness_size = 140 := rfl
  unfold proof_checks
  rw [if_neg (by omega), if_neg (by omega), if_neg (by omega),
    if_neg (fun hcon => hcon.2 hhdr), if_pos (by exact ⟨by omega, hthr⟩)]

/-- Corrupting one byte of the low 8 bytes of witness element 1 makes
the proposal-id cross-check fail. -/
theorem proof_checks_pid_flip (p : Proposal) (C N pf : List Nat)
    (hC : C.length = 32) (hN : N.length = 32)
    (ht : p.min_threshold < 2 ^ 64) (hid : p.id < 2 ^ 64)
    (hpf1 : 256 ≤ pf.length) (hpf2 : pf.length ≤ 452)
    (i b : Nat) (hi : i < 8) (hb : b < 256)
    (hne : b ≠ (natToBeBytes 8 p.id).getD i 0) :
    proof_checks p N C pf
      (mkWitness (scalarElem p.min_threshold)
        (List.replicate 24 0 ++ (natToBeBytes 8 p.id).set i b) C N) =
      some .ProposalIdMismatch := by
  have he1len : (List.replicate 24 0 ++
      (natToBeBytes 8 p.id).set i b).length = 32 := by
    simp [List.length_set, natToBeBytes_length]
  have hwlen := mkWitness_length (scalarElem p.min_threshold)
    (List.replicate 24 0 ++ (natToBeBytes 8 p.id).set i b)
    C N (scalarElem_length _) he1len hC hN
  have hhdr : beBytesToNat (sliceBytes
      (mkWitness (scalarElem p.min_threshold)
        (List.replicate 24 0 ++ (natToBeBytes 8 p.id).set i b) C N) 0 4) =
      NUM_PUBLIC_INPUTS := by
    rw [slice_header]
    rfl
  have hthr : beBytesToNat (sliceBytes
      (mkWitness (scalarElem p.min_threshold)
        (List.replicate 24 0 ++ (natToBeBytes 8 p.id).set i b) C N) 36 44) =
      p.min_threshold := by
    rw [slice_threshold _ _ _ _ (scalarElem_length _), scalarElem_drop,
      beBytesToNat_natToBeBytes 8 _ ht]
  have hpid : beBytesToNat (sliceBytes
      (mkWitness (scalarElem p.min_threshold)
        (List.replicate 24 0 ++ (natToBeBytes 8 p.id).set i b) C N) 68 76) ≠
      p.id := by
    rw [slice_proposal_id _ _ _ _ (scalarElem_length _) he1len,
      replicate24_drop]
    have hstep := beBytesToNat_set_ne (natToBeBytes 8 p.id) i b
      (natToBeBytes_valid 8 _) (by rw [natToBeBytes_length]; exact hi) hb hne
    rw [beBytesToNat_natToBeBytes 8 _ hid] at hstep
    exact hstep
  have hMIN : MIN_PROOF_SIZE = 256 := rfl
  have hMAX : GNARK_PROOF_SIZE + 64 = 452 := rfl
  have hEXP : expected_witness_size = 140 := rfl
  unfold proof_checks
  rw [if_neg (by omega), if_neg (by omega), if_neg (by omega),
    if_neg (fun hcon => hcon.2 hhdr), if_neg (fun hcon => hcon.2 hthr),
    if_pos (by exact ⟨by omega, hpid⟩)]

/-- Corrupting any byte of witness element 2 makes the commitment
cross-check fail. -/
theorem proof_checks_commitment_flip (p : Proposal) (C N pf : List Nat)
    (hC : C.length = 32) (hN : N.length = 32)
    (ht : p.min_threshold < 2 ^ 64) (hid : p.id < 2 ^ 64)
    (hpf1 : 256 ≤ pf.length) (hpf2 : pf.length ≤ 452)
    (j b : Nat) (hj : j < 32) (hne : b ≠ C.getD j 0) :
    proof_checks p N C pf
      (mkWitness (scalarElem p.min_threshold) (scalarElem p.id)
        (C.set j b) N) = some .CommitmentMismatch := by
  have hClen : (C.set j b).length = 32 := by simp [hC]
  have hwlen := mkWitness_length (scalarElem p.min_threshold)
    (scalarElem p.id) (C.set j b) N (scalarElem_length _)
    (scalarElem_length _) hClen hN
  have hhdr : beBytesToNat (sliceBytes
      (mkWitness (scalarElem p.min_threshold) (scalarElem p.id)
        (C.set j b) N) 0 4) = NUM_PUBLIC_INPUTS := by
    rw [slice_header]
    rfl
  have hthr : beBytesToNat (sliceBytes
      (mkWitness (scalarElem p.min_threshold) (scalarElem p.id)
        (C.set j b) N) 36 44) = p.min_threshold := by
    rw [slice_threshold _ _ _ _ (scalarElem_length _), scalarElem_drop,
      beBytesToNat_natToBeBytes 8 _ ht]
  have hpid : beBytesToNat (sliceBytes
      (mkWitness (scalarElem p.min_threshold) (scalarElem p.id)
        (C.set j b) N) 68 76) = p.id := by
    rw [slice_proposal_id _ _ _ _ (scalarElem_length _) (scalarElem_length _),
      scalarElem_drop, beBytesToNat_natToBeBytes 8 _ hid]
  have hcom : sliceBytes
      (mkWitness (scalarElem p.min_threshold) (scalarElem p.id)
        (C.set j b) N) 76 108 ≠ C := by
    rw [slice_commitment _ _ _ _ (scalarElem_length _) (scalarElem_length _)
      hClen]
    exact set_ne_self C j b (by omega) hne
  have hMIN : MIN_PROOF_SIZE = 256 := rfl
  have hMAX : GNARK_PROOF_SIZE + 64 = 452 := rfl
  have hEXP : expected_witness_size = 140 := rfl
  unfold proof_checks
  rw [if_neg (by omega), if_neg (by omega), if_neg (by omega),
    if_neg (fun hcon => hcon.2 hhdr), if_neg (fun hcon => hcon.2 hthr),
    if_neg (fun hcon => hcon.2 hpid), if_pos (by exact ⟨by omega, hcom⟩)]

/-- Corrupting any byte of witness element 3 makes the nullifier
cross-check fail. -/
theorem proof_checks_nullifier_flip (p : Proposal) (C N pf : List Nat)
    (hC : C.length = 32) (hN : N.length = 32)
    (ht : p.min_threshold < 2 ^ 64) (hid : p.id < 2 ^ 64)
    (hpf1 : 256 ≤ pf.length) (hpf2 : pf.length ≤ 452)
    (j b : Nat) (hj : j < 32) (hne : b ≠ N.getD j 0) :
    proof_checks p N C pf
      (mkWitness (scalarElem p.min_threshold) (scalarElem p.id) C
        (N.set j b)) = some .NullifierMismatch := by
  have hNlen : (N.set j b).length = 32 := by simp [hN]
  have hwlen := mkWitness_length (scalarElem p.min_threshold)
    (scalarElem p.id) C (N.set j b) (scalarElem_length _)
    (scalarElem_length _) hC hNlen
  have hhdr : beBytesToNat (sliceBytes
      (mkWitness (scalarElem p.min_threshold) (scalarElem p.id) C
        (N.set j b)) 0 4) = NUM_PUBLIC_INPUTS := by
    rw [slice_header]
    rfl
  have hthr : beBytesToNat (sliceBytes
      (mkWitness (scalarElem p.min_threshold) (scalarElem p.id) C
        (N.set j b)) 36 44) = p.min_threshold := by
    rw [slice_threshold _ _ _ _ (scalarElem_length _), scalarElem_drop,
      beBytesToNat_natToBeBytes 8 _ ht]
  have hpid : beBytesToNat (sliceBytes
      (mkWitness (scalarElem p.min_threshold) (scalarElem p.id) C
        (N.set j b)) 68 76) = p.id := by
    rw [slice_proposal_id _ _ _ _ (scalarElem_length _) (scalarElem_length _),
      scalarElem_drop, beBytesToNat_natToBeBytes 8 _ hid]
  have hcom : sliceBytes
      (mkWitness (scalarElem p.min_threshold) (scalarElem p.id) C
        (N.set j b)) 76 108 = C :=
    slice_commitment _ _ _ _ (scalarElem_length _) (scalarElem_length _) hC
  have hnul : sliceBytes
      (mkWitness (scalarElem p.min_threshold) (scalarElem p.id) C
        (N.set j b)) 108 140 ≠ N := by
    rw [slice_nullifier _ _ _ _ (scalarElem_length _) (scalarElem_length _)
      hC hNlen]
    exact set_ne_self N j b (by omega) hne
  have hMIN : MIN_PROOF_SIZE = 256 := rfl
  have hMAX : GNARK_PROOF_SIZE + 64 = 452 := rfl
  have hEXP : expected_witness_size = 140 := rfl
  unfold proof_checks
  rw [if_neg (by omega), if_neg (by omega), if_neg (by omega),
    if_neg (fun hcon => hcon.2 hhdr), if_neg (fun hcon => hcon.2 hthr),
    if_neg (fun hcon => hcon.2 hpid), if_neg (fun hcon => hcon.2 hcom),
    if_pos (by exact ⟨by omega, hnul⟩)]

/-- When the record is creatable and the temporal, finalization and
balance guards pass, `cast_vote` reduces to the proof-validation block
followed by the verifier CPI and the store step. -/
theorem cast_vote_guards_pass (now : Int) (p : Proposal) (bal : Nat)
    (verdict : Except Nat Unit) (n c pf wit : List Nat)
    (h1 : p.start_time ≤ now) (h2 : now ≤ p.end_time)
    (h3 : p.is_finalized = false) (h4 : p.min_threshold ≤ bal) :
    cast_vote now p none bal verdict n c pf wit =
      match proof_checks p n c pf wit with
      | some e => .error (.program e)
      | none =>
          match verdict with
          | .error code => .error (.verifier code)
          | .ok _ =>
              .ok ({ p with vote_count := p.vote_count + 1 },
                   { proposal := p.id
                     nullifier := n
                     vote_commitment := c
                     timestamp := now
                     is_revealed := false
                     revealed_choice := none }) := by
  rw [cast_vote.eq_def, if_neg (by simp), if_neg (by omega),
    if_neg (by omega), if_neg (by simp [h3]), if_neg (by omega)]

/-! ### Claim C2: the witness cross-check -/

/-- C2 counterexample: changing a single byte in the *high* 24 bytes of
witness element 0 (byte 0 of the field element, flipped from 0 to 1)
does *not* cause `ThresholdMismatch`: the cross-check reads only the low
8 bytes of the scalar elements (lib.rs line 154), so the call still
passes the cross-check and creates the record. -/
theorem C2_counterexample :
    cast_vote 50 pDemo none 1000 (.ok ()) nDemo cDemo proofDemo
      (mkWitness ((scalarElem 100).set 0 1) (scalarElem 42) cDemo nDemo) =
      .ok ({ pDemo with vote_count := 1 }, recDemo)
    ∧ (scalarElem 100).set 0 1 ≠ scalarElem 100 := by
  refine ⟨rfl, by decide⟩

/-- C2 (amended): for a call reaching the cross-check, a witness whose
element 0 low 8 bytes encode `proposal.min_threshold`, element 1 low 8
bytes encode `proposal.id`, element 2 equals the submitted commitment,
and element 3 equals the submitted nullifier passes the cross-check (and
the cast succeeds when the verifier accepts); changing any single byte
of the *low 8 bytes* of element 0 or 1 causes `ThresholdMismatch`
resp. `ProposalIdMismatch`, and changing any single byte anywhere in
element 2 or 3 causes `CommitmentMismatch` resp. `NullifierMismatch`,
with no record created; byte changes confined to the high 24 bytes of
elements 0-1 are ignored by the cross-check. -/
theorem C2_cross_check (now : Int) (p : Proposal) (bal : Nat)
    (C N pf : List Nat)
    (hC : C.length = 32) (hN : N.length = 32)
    (ht : p.min_threshold < 2 ^ 64) (hid : p.id < 2 ^ 64)
    (h1 : p.start_time ≤ now) (h2 : now ≤ p.end_time)
    (h3 : p.is_finalized = false) (h4 : p.min_threshold ≤ bal)
    (hpf1 : 256 ≤ pf.length) (hpf2 : pf.length ≤ 452) :
    (cast_vote now p none bal (.ok ()) N C pf
        (mkWitness (scalarElem p.min_threshold) (scalarElem p.id) C N) =
      .ok ({ p with vote_count := p.vote_count + 1 },
           { proposal := p.id
             nullifier := N
             vote_commitment := C
             timestamp := now
             is_revealed := false
             revealed_choice := none }))
    ∧ (∀ i < 8, ∀ b < 256, b ≠ (natToBeBytes 8 p.min_threshold).getD i 0 →
        cast_vote now p none bal (.ok ()) N C pf
          (mkWitness
            (List.replicate 24 0 ++ (natToBeBytes 8 p.min_threshold).set i b)
            (scalarElem p.id) C N) = .error (.program .ThresholdMismatch))
    ∧ (∀ i < 8, ∀ b < 256, b ≠ (natToBeBytes 8 p.id).getD i 0 →
        cast_vote now p none bal (.ok ()) N C pf
          (mkWitness (scalarElem p.min_threshold)
            (List.replicate 24 0 ++ (natToBeBytes 8 p.id).set i b) C N) =
          .error (.program .ProposalIdMismatch))
    ∧ (∀ j < 32, ∀ b : Nat, b ≠ C.getD j 0 →
        cast_vote now p none bal (.ok ()) N C pf
          (mkWitness (scalarElem p.min_threshold) (scalarElem p.id)
            (C.set j b) N) = .error (.program .CommitmentMismatch))
    ∧ (∀ j < 32, ∀ b : Nat, b ≠ N.getD j 0 →
        cast_vote now p none bal (.ok ()) N C pf
          (mkWitness (scalarElem p.min_threshold) (scalarElem p.id) C
            (N.set j b)) = .error (.program .NullifierMismatch)) := by
  refine ⟨?_, ?_, ?_, ?_, ?_⟩
  · rw [cast_vote_guards_pass now p bal _ _ _ _ _ h1 h2 h3 h4,
      proof_checks_canonical p C N pf hC hN ht hid hpf1 hpf2]
  · intro i hi b hb hne
    rw [cast_vote_guards_pass now p bal _ _ _ _ _ h1 h2 h3 h4,
      proof_checks_threshold_flip p C N pf hC hN ht hpf1 hpf2 i b hi hb hne]
  · intro i hi b hb hne
    rw [cast_vote_guards_pass now p bal _ _ _ _ _ h1 h2 h3 h4,
      proof_checks_pid_flip p C N pf hC hN ht hid hpf1 hpf2 i b hi hb hne]
  · intro j hj b hne
    rw [cast_vote_guards_pass now p bal _ _ _ _ _ h1 h2 h3 h4,
      proof_checks_commitment_flip p C N pf hC hN ht hid hpf1 hpf2 j b hj hne]
  · intro j hj b hne
    rw [cast_vote_guards_pass now p bal _ _ _ _ _ h1 h2 h3 h4,
      proof_checks_nullifier_flip p C N pf hC hN ht hid hpf1 hpf2 j b hj hne]

/-- C2 witness: instantiating `C2_cross_check` — the canonical witness
for `pDemo` is accepted, and flipping the last low byte of element 0
(the byte carrying the value 100) to 0 yields `ThresholdMismatch`. -/
theorem C2_cross_check_witness :
    cast_vote 50 pDemo none 1000 (.ok ()) nDemo cDemo proofDemo
      (mkWitness (scalarElem 100) (scalarElem 42) cDemo nDemo) =
      .ok ({ pDemo with vote_count := 1 }, recDemo)
    ∧ cast_vote 50 pDemo none 1000 (.ok ()) nDemo cDemo proofDemo
      (mkWitness (List.replicate 24 0 ++ (natToBeBytes 8 100).set 7 0)
        (scalarElem 42) cDemo nDemo) =
      .error (.program .ThresholdMismatch) := by
  have h := C2_cross_check 50 pDemo 1000 cDemo nDemo proofDemo
    (by decide) (by decide) (by decide) (by decide) (by decide) (by decide)
    (by decide) (by decide) (by decide) (by decide)
  exact ⟨h.1, h.2.1 7 (by decide) 0 (by decide) (by decide)⟩

/-! ### Claim C3: verifier rejection handling -/

/-- C3 counterexample: when every local check passes and the verifier
CPI rejects with its own error code (here 9), `cast_vote` fails with the
*propagated* verifier error, not with `InvalidProof`: lib.rs line 201
is `invoke(&verify_ix, ..)?`, which forwards the callee's error
unchanged. -/
theorem C3_counterexample :
    cast_vote 50 pDemo none 1000 (.error 9) nDemo cDemo proofDemo witDemo =
      .error (.verifier 9)
    ∧ CastErr.verifier 9 ≠ .program .InvalidProof := by
  refine ⟨rfl, by decide⟩

/-- C3 (amended): whenever `cast_vote` reaches the verifier CPI (all
local checks pass) and the verifier rejects with code `code`, the call
fails with the propagated CPI error `CastErr.verifier code`, which is
distinct from every in-program error and in particular from
`InvalidProof`. -/
theorem C3_verifier_error_propagates (now : Int) (p : Proposal) (bal : Nat)
    (code : Nat) (n c pf wit : List Nat)
    (h1 : p.start_time ≤ now) (h2 : now ≤ p.end_time)
    (h3 : p.is_finalized = false) (h4 : p.min_threshold ≤ bal)
    (h5 : proof_checks p n c pf wit = none) :
    cast_vote now p none bal (.error code) n c pf wit =
      .error (.verifier code)
    ∧ ∀ e : PsephosError, CastErr.verifier code ≠ .program e := by
  constructor
  · rw [cast_vote_guards_pass now p bal _ _ _ _ _ h1 h2 h3 h4, h5]
  · intro e
    simp

/-- C3 witness: instantiating `C3_verifier_error_propagates` with the
canonical `pDemo` inputs and verifier error code 3 at time 60. -/
theorem C3_verifier_error_propagates_witness :
    cast_vote 60 pDemo none 1000 (.error 3) nDemo cDemo proofDemo witDemo =
      .error (.verifier 3)
    ∧ CastErr.verifier 3 ≠ .program .InvalidProof :=
  ⟨(C3_verifier_error_propagates 60 pDemo 1000 3 nDemo cDemo proofDemo
      witDemo (by decide) (by decide) (by decide) (by decide) (by decide)).1,
   (C3_verifier_error_propagates 60 pDemo 1000 3 nDemo cDemo proofDemo
      witDemo (by decide) (by decide) (by decide) (by decide)
      (by decide)).2 .InvalidProof⟩

end Psephos
